import Mathlib

/-!
Shallow embedding of the MariaDB MCP server core
(src/permissionService.ts, src/connection.ts, src/dbService.ts)
and proofs about its specified properties.
-/

namespace MariaDBMCP

/-! ## permissionService.ts -/

/-- Command categories: DQL commands (always allowed). -/
def DQL_COMMANDS : List String :=
  ["SELECT", "SHOW", "DESCRIBE", "DESC", "EXPLAIN"]

/-- Command categories: DML commands (conditional on allowDml). -/
def DML_COMMANDS : List String :=
  ["INSERT", "UPDATE", "DELETE", "REPLACE"]

/-- Command categories: DDL commands (conditional on allowDdl). -/
def DDL_COMMANDS : List String :=
  ["CREATE", "ALTER", "DROP", "TRUNCATE", "RENAME"]

/-- Always disallowed SQL commands (for security/stability). -/
def ALWAYS_DISALLOWED_COMMANDS : List String :=
  ["GRANT", "REVOKE", "SET", "LOCK", "UNLOCK", "CALL", "EXEC", "EXECUTE",
   "PREPARE", "DEALLOCATE", "START", "BEGIN", "COMMIT", "ROLLBACK",
   "SAVEPOINT", "USE"]

/-- Whitespace characters, modelling the JS regex class backslash-s on the
query alphabet (space, tab, newline, carriage return). -/
def isSpaceChar (c : Char) : Bool :=
  c = ' ' || c = '\t' || c = '\n' || c = '\r'

/-- Drop everything from the first occurrence of -- to the end of the line,
modelling one line of the replace of the line-comment regex. -/
def dropLineComment : List Char → List Char
  | [] => []
  | '-' :: '-' :: _ => []
  | c :: rest => c :: dropLineComment rest

/-- Split a character list at every occurrence of a separator character. -/
def splitOnNl : List Char → List (List Char)
  | [] => [[]]
  | c :: rest =>
    let r := splitOnNl rest
    if c = '\n' then [] :: r
    else
      match r with
      | [] => [[c]]
      | l :: ls => (c :: l) :: ls

/-- Rejoin lines with newline characters. -/
def joinNl : List (List Char) → List Char
  | [] => []
  | [l] => l
  | l :: ls => l ++ '\n' :: joinNl ls

/-- Remove single-line comments from every line, modelling the global
multiline replace of the regex matching -- up to end of line. -/
def stripLineComments (cs : List Char) : List Char :=
  joinNl ((splitOnNl cs).map dropLineComment)

/-- Return the suffix following the first end-of-block-comment marker,
or none when no such marker exists. -/
def findBlockClose : List Char → Option (List Char)
  | [] => none
  | '*' :: '/' :: rest => some rest
  | _ :: rest => findBlockClose rest

/-- Fueled scanner removing non-greedy block comments, modelling the global
replace of the block-comment regex: at each comment opener, the text up to
and including the nearest closer is deleted; an opener without a closer is
left in place. -/
def stripBlockCommentsAux : Nat → List Char → List Char
  | 0, cs => cs
  | Nat.succ fuel, cs =>
    match cs with
    | [] => []
    | '/' :: '*' :: rest =>
      match findBlockClose rest with
      | some rest2 => stripBlockCommentsAux fuel rest2
      | none => '/' :: stripBlockCommentsAux fuel ('*' :: rest)
    | c :: rest => c :: stripBlockCommentsAux fuel rest

/-- Remove block comments (fuel is the input length, which suffices since
every step consumes at least one character). -/
def stripBlockComments (cs : List Char) : List Char :=
  stripBlockCommentsAux cs.length cs

/-- Collapse each run of whitespace into a single space, modelling the
global replace of whitespace runs by one space. The flag records whether
the previous character belonged to a whitespace run. -/
def collapseWsAux : Bool → List Char → List Char
  | _, [] => []
  | prevSpace, c :: rest =>
    if isSpaceChar c then
      if prevSpace then collapseWsAux true rest
      else ' ' :: collapseWsAux true rest
    else c :: collapseWsAux false rest

/-- Collapse whitespace runs to single spaces. -/
def collapseWs (cs : List Char) : List Char :=
  collapseWsAux false cs

/-- Remove leading and trailing whitespace, modelling String.prototype.trim. -/
def trimChars (cs : List Char) : List Char :=
  ((cs.dropWhile isSpaceChar).reverse.dropWhile isSpaceChar).reverse

/-- Uppercase a string (ASCII, which covers all SQL keywords). -/
def upperString (s : String) : String :=
  String.mk (s.data.map Char.toUpper)

/-- Lowercase a string (ASCII). -/
def lowerString (s : String) : String :=
  String.mk (s.data.map Char.toLower)

/-- normalizeQuery: remove comments, normalize whitespace, trim, uppercase. -/
def normalizeQuery (query : String) : String :=
  String.mk
    (trimChars (collapseWs (stripBlockComments (stripLineComments query.data)))
      |>.map Char.toUpper)

/-- Trim one optional trailing semicolon, modelling the endsWith check and
the slice dropping the last character. -/
def trimTrailingSemicolon (n : List Char) : List Char :=
  if n.getLast? = some ';' then n.dropLast else n

/-- Separator characters of the keyword-splitting regex: whitespace,
semicolon, parentheses. -/
def isSepChar (c : Char) : Bool :=
  isSpaceChar c || c = ';' || c = '(' || c = ')'

/-- The first field of the regex split of the normalized query: the prefix
before the first separator character. When the string starts with a
separator this field is empty, exactly as index zero of the JS split. -/
def leadingCommand (n : List Char) : String :=
  String.mk (n.takeWhile (fun c => !(isSepChar c)))

/-- checkPermissions: validate a SQL query against the DML/DDL policy. -/
def checkPermissions (query : String) (allowDml : Bool) (allowDdl : Bool) : Bool :=
  let normalizedQuery := (normalizeQuery query).data
  if normalizedQuery.isEmpty then false
  else if (trimTrailingSemicolon normalizedQuery).contains ';' then false
  else
    let command := leadingCommand normalizedQuery
    if command = "" then false
    else if ALWAYS_DISALLOWED_COMMANDS.contains command then false
    else if DQL_COMMANDS.contains command then true
    else if DML_COMMANDS.contains command then allowDml
    else if DDL_COMMANDS.contains command then allowDdl
    else false

/-! ## connection.ts -/

/-- Default row limit for query results. -/
def DEFAULT_ROW_LIMIT : Nat := 1000

/-- Default connection timeout in milliseconds. -/
def DEFAULT_TIMEOUT : Nat := 10000

/-- A SQL column value as delivered by the driver: a raw binary buffer
(a list of bytes), a text string, a number, or NULL. -/
inductive Value where
  | buf (bytes : List Nat)
  | str (s : String)
  | int (n : Int)
  | null
deriving DecidableEq, Repr

/-- A result row: an object mapping column names to values. -/
abbrev Row := List (String × Value)

/-- The raw result of conn.query: either an array of rows or a non-array
result (for example an OK packet). -/
inductive QueryRows where
  | arr (rows : List Row)
  | other (v : Value)
deriving DecidableEq, Repr

/-- Hexadecimal digit characters, lowercase (values ten and up map to the
letters a through f). -/
def hexDigit (n : Nat) : Char :=
  if n < 10 then Char.ofNat (48 + n) else Char.ofNat (87 + n)

/-- The two lowercase hex digits of one byte (bytes are reduced modulo 256,
the width of a buffer byte). -/
def byteToHexChars (b : Nat) : List Char :=
  [hexDigit (b % 256 / 16), hexDigit (b % 16)]

/-- Buffer.toString with hex encoding: concatenation of the two lowercase
hex digits of every byte. -/
def bufferToHex (bytes : List Nat) : String :=
  String.mk (bytes.map byteToHexChars).flatten

/-- Replace a buffer value by its hex string, leaving other values alone:
one step of the per-key loop over a row. -/
def encodeValue (v : Value) : Value :=
  match v with
  | Value.buf bytes => Value.str (bufferToHex bytes)
  | v => v

/-- Process one row: convert every Buffer value to its hex string. -/
def processRow (row : Row) : Row :=
  row.map (fun kv => (kv.1, encodeValue kv.2))

/-- Convert Buffer objects to hex strings when the result is an array of
rows; non-array results pass through unchanged. -/
def processRows (rows : QueryRows) : QueryRows :=
  match rows with
  | QueryRows.arr rs => QueryRows.arr (rs.map processRow)
  | QueryRows.other v => QueryRows.other v

/-- Apply the row limit when the result is an array longer than the limit;
otherwise return the result unchanged. -/
def limitRows (rows : QueryRows) : QueryRows :=
  match rows with
  | QueryRows.arr rs =>
    if rs.length > DEFAULT_ROW_LIMIT then QueryRows.arr (rs.take DEFAULT_ROW_LIMIT)
    else QueryRows.arr rs
  | QueryRows.other v => QueryRows.other v

deriving instance DecidableEq for Except

/-- Observable outcome of one executeQuery call: the returned value or
thrown error, how many connections were acquired from the pool, how many
times conn.release was invoked, and whether the statement was sent to the
database via conn.query. -/
structure ExecOutcome where
  result : Except String QueryRows
  acquireCount : Nat
  releaseCalls : Nat
  querySent : Bool
deriving DecidableEq, Repr

/-- The part of executeQuery after a connection was acquired and any
database switch succeeded: permission check, execution, post-processing.
On the success path the finally block releases once; on a throw the catch
block releases and then the finally block releases again. -/
def executeQueryAfterUse (allowDml allowDdl : Bool) (sql : String)
    (queryResult : Except String QueryRows) : ExecOutcome :=
  if !(checkPermissions sql allowDml allowDdl) then
    { result := Except.error "Query not permitted based on DML/DDL/Command restrictions.",
      acquireCount := 1, releaseCalls := 2, querySent := false }
  else
    match queryResult with
    | Except.error e =>
      { result := Except.error e, acquireCount := 1, releaseCalls := 2, querySent := true }
    | Except.ok rows =>
      { result := Except.ok (limitRows (processRows rows)),
        acquireCount := 1, releaseCalls := 1, querySent := true }

/-- executeQuery modelled over the driver interactions it cannot decide
itself: whether the pool argument is a valid instance, the outcome of
pool.getConnection, the outcome of the USE statement when a database is
given, and the outcome of conn.query for the main statement. Mirrors the
try/catch/finally structure of the source: the catch block releases the
connection when one is held and rethrows, the finally block releases again. -/
def executeQuery (poolValid : Bool) (allowDml allowDdl : Bool) (sql : String)
    (acquireResult : Except String Unit)
    (database : Option String) (useResult : Except String Unit)
    (queryResult : Except String QueryRows) : ExecOutcome :=
  if !poolValid then
    { result := Except.error "executeQuery requires a valid pool instance.",
      acquireCount := 0, releaseCalls := 0, querySent := false }
  else
    match acquireResult with
    | Except.error e =>
      { result := Except.error e, acquireCount := 0, releaseCalls := 0, querySent := false }
    | Except.ok _ =>
      match database with
      | some db =>
        if db = "" then executeQueryAfterUse allowDml allowDdl sql queryResult
        else
          match useResult with
          | Except.error e =>
            { result := Except.error e, acquireCount := 1, releaseCalls := 2, querySent := false }
          | Except.ok _ => executeQueryAfterUse allowDml allowDdl sql queryResult
      | none => executeQueryAfterUse allowDml allowDdl sql queryResult

/-! ## dbService.ts -/

/-- Granular details that can be fetched for table schema analysis. -/
inductive SchemaDetailFlag where
  | COLUMNS_BASIC
  | COLUMNS_FULL
  | FOREIGN_KEYS
  | INDEXES_BASIC
  | INDEXES_FULL
deriving DecidableEq, Repr

/-- Map the user-facing detail_level string to internal flags: the
detailLevelToFlags lookup after uppercasing, with empty input and unknown
levels defaulting to STANDARD. -/
def resolveFlags (detailLevel : String) : List SchemaDetailFlag :=
  let u := upperString detailLevel
  let eff := if u = "" then "STANDARD" else u
  if eff = "BASIC" then [SchemaDetailFlag.COLUMNS_BASIC]
  else if eff = "STANDARD" then
    [SchemaDetailFlag.COLUMNS_BASIC, SchemaDetailFlag.FOREIGN_KEYS,
     SchemaDetailFlag.INDEXES_BASIC]
  else if eff = "FULL" then
    [SchemaDetailFlag.COLUMNS_FULL, SchemaDetailFlag.FOREIGN_KEYS,
     SchemaDetailFlag.INDEXES_FULL]
  else
    [SchemaDetailFlag.COLUMNS_BASIC, SchemaDetailFlag.FOREIGN_KEYS,
     SchemaDetailFlag.INDEXES_BASIC]

/-- The restrictive identifier pattern for database and table names:
one or more letters, digits or underscores, anchored at both ends. -/
def validIdent (s : String) : Bool :=
  !s.data.isEmpty && s.data.all (fun c => c.isAlphanum || c = '_')

/-- Errors raised by the orchestrator (McpError with ErrorCode.InvalidParams). -/
inductive McpErr where
  | invalidParams (msg : String)
deriving DecidableEq, Repr

/-- One facet of schema metadata (columns, foreign keys or indexes) as a
list of metadata rows. -/
abbrev Facet := List Row

/-- The database interactions of the analysis loop, abstracted: the
existence check (the count query against the information schema) and the
facet fetchers, each either succeeding with data or throwing. -/
structure TableOracle where
  existsCheck : String → Except String Bool
  fetchColumnsBasic : String → Except String Facet
  fetchColumnsFull : String → Except String Facet
  fetchForeignKeys : String → Except String Facet
  fetchIndexesBasic : String → Except String Facet
  fetchIndexesFull : String → Except String Facet

/-- The per-table analysis record: the facet keys that were set, or the
error key. A missing key is none. -/
structure TableResult where
  columns : Option Facet := none
  foreign_keys : Option Facet := none
  indexes : Option Facet := none
  error : Option String := none
deriving DecidableEq, Repr

/-- The facet-fetch block of the per-table try: columns (full before
basic), then foreign keys, then indexes (full before basic); the first
throw aborts the block. -/
def fetchFacets (flags : List SchemaDetailFlag) (oracle : TableOracle)
    (tableName : String) : Except String TableResult :=
  match (if flags.contains SchemaDetailFlag.COLUMNS_FULL then
            Except.map some (oracle.fetchColumnsFull tableName)
         else if flags.contains SchemaDetailFlag.COLUMNS_BASIC then
            Except.map some (oracle.fetchColumnsBasic tableName)
         else Except.ok none) with
  | Except.error e => Except.error e
  | Except.ok columns =>
    match (if flags.contains SchemaDetailFlag.FOREIGN_KEYS then
              Except.map some (oracle.fetchForeignKeys tableName)
           else Except.ok none) with
    | Except.error e => Except.error e
    | Except.ok foreignKeys =>
      match (if flags.contains SchemaDetailFlag.INDEXES_FULL then
                Except.map some (oracle.fetchIndexesFull tableName)
             else if flags.contains SchemaDetailFlag.INDEXES_BASIC then
                Except.map some (oracle.fetchIndexesBasic tableName)
             else Except.ok none) with
      | Except.error e => Except.error e
      | Except.ok indexes =>
        Except.ok { columns := columns, foreign_keys := foreignKeys,
                    indexes := indexes, error := none }

/-- The body of the per-table loop: identifier validation, existence check,
facet fetches; every failure mode becomes an error-only record and a throw
during the facet fetches replaces any partial record. -/
def analyzeOneTable (dbName : String) (flags : List SchemaDetailFlag)
    (oracle : TableOracle) (tableName : String) : TableResult :=
  if !(validIdent tableName) then
    { error := some "Invalid table name format." }
  else
    match oracle.existsCheck tableName with
    | Except.error e =>
      { error := some ("Failed to check existence for table \x27" ++ tableName
          ++ "\x27: " ++ e) }
    | Except.ok false =>
      { error := some ("Table \x27" ++ tableName
          ++ "\x27 does not exist in database \x27" ++ dbName ++ "\x27.") }
    | Except.ok true =>
      match fetchFacets flags oracle tableName with
      | Except.ok tableResult => tableResult
      | Except.error e => { error := some ("Failed to analyze table: " ++ e) }

/-- Assignment into the results object: an existing key is updated in
place, a new key is appended, preserving JS object key insertion order. -/
def upsert (m : List (String × TableResult)) (k : String) (v : TableResult) :
    List (String × TableResult) :=
  if m.any (fun p => p.1 = k) then
    m.map (fun p => if p.1 = k then (k, v) else p)
  else m ++ [(k, v)]

/-- The per-table for loop over the requested table names, accumulating
the results object. -/
def analyzeLoop (dbName : String) (flags : List SchemaDetailFlag)
    (oracle : TableOracle) : List String → List (String × TableResult) →
    List (String × TableResult)
  | [], acc => acc
  | t :: rest, acc =>
    analyzeLoop dbName flags oracle rest
      (upsert acc t (analyzeOneTable dbName flags oracle t))

/-- Resolve the target database name: the explicit argument when given and
truthy, else the configured default from the environment. -/
def resolveDbName (database : Option String) (envDatabase : Option String) :
    Option String :=
  match database with
  | some d => if d = "" then envDatabase else some d
  | none => envDatabase

/-- analyzeTables: the schema analysis orchestrator. envDatabase is the
database field of the environment configuration; oracle carries the
metadata queries issued through executeQuery. -/
def analyzeTables (envDatabase : Option String) (oracle : TableOracle)
    (tableNames : List String) (detailLevel : String)
    (database : Option String) :
    Except McpErr (List (String × TableResult)) :=
  if tableNames.isEmpty then
    Except.error (McpErr.invalidParams "table_names array cannot be empty")
  else
    let flags := resolveFlags detailLevel
    match resolveDbName database envDatabase with
    | none =>
      Except.error (McpErr.invalidParams
        "Database name is required (either in arguments or environment config)")
    | some dbName =>
      if dbName = "" then
        Except.error (McpErr.invalidParams
          "Database name is required (either in arguments or environment config)")
      else if !(validIdent dbName) then
        Except.error (McpErr.invalidParams "Invalid database name format.")
      else
        Except.ok (analyzeLoop dbName flags oracle tableNames [])

/-- An oracle on which every database interaction succeeds and every table
exists, used for concrete instantiations. -/
def trivialOracle : TableOracle :=
  { existsCheck := fun _ => Except.ok true,
    fetchColumnsBasic := fun _ => Except.ok [],
    fetchColumnsFull := fun _ => Except.ok [],
    fetchForeignKeys := fun _ => Except.ok [],
    fetchIndexesBasic := fun _ => Except.ok [],
    fetchIndexesFull := fun _ => Except.ok [] }

/-- A concrete result set of 1500 rows, exceeding the row limit. -/
def bigRows : List Row :=
  (List.range 1500).map (fun i => [("id", Value.int (Int.ofNat i))])

/-! ## Helper lemmas -/

example : normalizeQuery "  select 1 -- comment\n ;" = "SELECT 1 ;" := by decide
example : normalizeQuery "/* hi */ show tables" = "SHOW TABLES" := by decide
example : checkPermissions "SELECT * FROM t" false false = true := by decide
example : checkPermissions "SELECT 1; SELECT 2" true true = false := by decide
example : checkPermissions "DROP TABLE t" true false = false := by decide
example : checkPermissions "DROP TABLE t" false true = true := by decide
example : checkPermissions "INSERT INTO t VALUES (1)" true false = true := by decide
example : checkPermissions "GRANT ALL ON x TO y" true true = false := by decide
example : checkPermissions "(SELECT 1) UNION (SELECT 2)" true true = false := by decide
example : leadingCommand (normalizeQuery "(SELECT 1) UNION (SELECT 2)").data = "" := by decide
example : checkPermissions "FOO BAR" true true = false := by decide

example :
    (executeQuery true true false "DROP TABLE t" (Except.ok ()) none (Except.ok ())
      (Except.ok (QueryRows.arr []))).releaseCalls = 2 := by decide
example :
    (executeQuery true false false "SELECT 1" (Except.ok ()) none (Except.ok ())
      (Except.ok (QueryRows.arr []))).releaseCalls = 1 := by decide
example : bufferToHex [0, 255, 16] = "00ff10" := by decide

example :
    analyzeTables none trivialOracle ["t"] "STANDARD" none =
      Except.error (McpErr.invalidParams
        "Database name is required (either in arguments or environment config)") := by
  decide

example :
    analyzeTables none trivialOracle ["validTable", "bad name!"] "STANDARD"
        (some "testdb") =
      Except.ok
        [("validTable",
          { columns := some [], foreign_keys := some [], indexes := some [],
            error := none }),
         ("bad name!", { error := some "Invalid table name format." })] := by
  decide


/-- hexDigit maps every value below sixteen to a lowercase hex character. -/
lemma hexDigit_mem (n : Nat) (h : n < 16) :
    hexDigit n ∈ "0123456789abcdef".data := by
  interval_cases n <;> decide

/-- contains on a list of strings implies membership. -/
lemma contains_mem {l : List String} {s : String} (h : l.contains s = true) :
    s ∈ l := by
  simpa [List.contains] using List.elem_iff.mp h

/-- contains false implies non-membership. -/
lemma not_mem_of_contains_false {α : Type} [BEq α] [LawfulBEq α]
    {l : List α} {s : α} (h : l.contains s = false) : s ∉ l := by
  intro hmem
  simp [List.contains] at h
  exact h hmem

/-- The leading command of the empty character list is the empty string. -/
lemma leadingCommand_nil : leadingCommand [] = "" := by decide

/-- A query with a nonempty leading command has a nonempty normalized form. -/
lemma normalized_nonempty {q : String}
    (hne : leadingCommand (normalizeQuery q).data ≠ "") :
    (normalizeQuery q).data.isEmpty = false := by
  rw [List.isEmpty_eq_false]
  intro hnil
  apply hne
  rw [hnil]
  exact leadingCommand_nil

/-- When the permission check fails, executeQuery never sends the statement
and never returns a result. -/
lemma executeQuery_denied (pv a b : Bool) (sql : String)
    (acq : Except String Unit) (db : Option String) (use : Except String Unit)
    (qr : Except String QueryRows) (h : checkPermissions sql a b = false) :
    (executeQuery pv a b sql acq db use qr).querySent = false ∧
      ∀ rows, (executeQuery pv a b sql acq db use qr).result ≠ Except.ok rows := by
  have hAfter : executeQueryAfterUse a b sql qr =
      { result := Except.error
          "Query not permitted based on DML/DDL/Command restrictions.",
        acquireCount := 1, releaseCalls := 2, querySent := false } := by
    simp [executeQueryAfterUse, h]
  cases pv with
  | false => simp [executeQuery]
  | true =>
    cases acq with
    | error e => simp [executeQuery]
    | ok u =>
      cases db with
      | none => simp [executeQuery, hAfter]
      | some d =>
        by_cases hd : d = ""
        · simp [executeQuery, hd, hAfter]
        · cases use with
          | error e => simp [executeQuery, hd]
          | ok u2 => simp [executeQuery, hd, hAfter]

/-- Membership after an upsert: either the upserted pair or an original one. -/
lemma mem_upsert {m : List (String × TableResult)} {k : String}
    {v : TableResult} {p : String × TableResult} (hp : p ∈ upsert m k v) :
    p = (k, v) ∨ p ∈ m := by
  unfold upsert at hp
  split at hp
  · rcases List.mem_map.mp hp with ⟨q, hq, hmap⟩
    by_cases hqk : q.1 = k
    · rw [if_pos hqk] at hmap
      exact Or.inl hmap.symm
    · rw [if_neg hqk] at hmap
      exact Or.inr (hmap ▸ hq)
  · rcases List.mem_append.mp hp with h1 | h1
    · exact Or.inr h1
    · exact Or.inl (by simpa using h1)

/-- The keys after an upsert: unchanged when the key was present, extended
by the key otherwise. -/
lemma keys_upsert (m : List (String × TableResult)) (k : String)
    (v : TableResult) :
    (upsert m k v).map Prod.fst =
      if m.any (fun p => p.1 = k) then m.map Prod.fst
      else m.map Prod.fst ++ [k] := by
  unfold upsert
  by_cases hc : m.any (fun p => p.1 = k) = true
  · rw [if_pos hc, if_pos hc, List.map_map]
    apply List.map_congr_left
    intro p _
    by_cases hpk : p.1 = k <;> simp [hpk]
  · rw [if_neg hc, if_neg hc, List.map_append]
    rfl

/-- The upserted key is among the keys after an upsert. -/
lemma mem_keys_upsert_self (m : List (String × TableResult)) (k : String)
    (v : TableResult) : k ∈ (upsert m k v).map Prod.fst := by
  rw [keys_upsert]
  by_cases hc : m.any (fun p => p.1 = k) = true
  · rw [if_pos hc]
    rcases List.any_eq_true.mp hc with ⟨p, hp, hpk⟩
    have hpk2 : p.1 = k := by simpa using hpk
    exact hpk2 ▸ List.mem_map.mpr ⟨p, hp, rfl⟩
  · rw [if_neg hc]
    exact List.mem_append.mpr (Or.inr (by simp))

/-- Keys present before an upsert are still present after it. -/
lemma mem_keys_upsert_of_mem {m : List (String × TableResult)} {t : String}
    (k : String) (v : TableResult) (h : t ∈ m.map Prod.fst) :
    t ∈ (upsert m k v).map Prod.fst := by
  rw [keys_upsert]
  split
  · exact h
  · exact List.mem_append.mpr (Or.inl h)

/-- A key present after an upsert was present before or is the new key. -/
lemma mem_keys_upsert_cases {m : List (String × TableResult)} {t k : String}
    {v : TableResult} (h : t ∈ (upsert m k v).map Prod.fst) :
    t ∈ m.map Prod.fst ∨ t = k := by
  rw [keys_upsert] at h
  split at h
  · exact Or.inl h
  · rcases List.mem_append.mp h with h1 | h1
    · exact Or.inl h1
    · exact Or.inr (by simpa using h1)

/-- Upserts keep the keys duplicate-free. -/
lemma nodup_keys_upsert {m : List (String × TableResult)} (k : String)
    (v : TableResult) (h : (m.map Prod.fst).Nodup) :
    ((upsert m k v).map Prod.fst).Nodup := by
  rw [keys_upsert]
  by_cases hc : m.any (fun p => p.1 = k) = true
  · rwa [if_pos hc]
  · rw [if_neg hc]
    rw [List.nodup_append]
    refine ⟨h, List.nodup_singleton k, ?_⟩
    intro t ht hts
    have htk : t = k := by simpa using hts
    subst htk
    rcases List.mem_map.mp ht with ⟨p, hp, hpk⟩
    exact absurd (List.any_eq_true.mpr ⟨p, hp, by simp [hpk]⟩) hc

/-- Every value in the analysis loop output is determined by its key. -/
lemma analyzeLoop_values (dbName : String) (flags : List SchemaDetailFlag)
    (oracle : TableOracle) :
    ∀ (ts : List String) (acc : List (String × TableResult)),
    (∀ p ∈ acc, p.2 = analyzeOneTable dbName flags oracle p.1) →
    ∀ p ∈ analyzeLoop dbName flags oracle ts acc,
      p.2 = analyzeOneTable dbName flags oracle p.1 := by
  intro ts
  induction ts with
  | nil => intro acc hacc p hp; exact hacc p hp
  | cons t rest ih =>
    intro acc hacc p hp
    simp only [analyzeLoop] at hp
    refine ih _ ?_ p hp
    intro q hq
    rcases mem_upsert hq with hqe | hqm
    · rw [hqe]
    · exact hacc q hqm

/-- Keys present in the accumulator remain present in the loop output. -/
lemma analyzeLoop_keys_mono (dbName : String) (flags : List SchemaDetailFlag)
    (oracle : TableOracle) :
    ∀ (ts : List String) (acc : List (String × TableResult)) (t : String),
    t ∈ acc.map Prod.fst →
    t ∈ (analyzeLoop dbName flags oracle ts acc).map Prod.fst := by
  intro ts
  induction ts with
  | nil => intro acc t h; exact h
  | cons s rest ih =>
    intro acc t h
    simp only [analyzeLoop]
    exact ih _ t (mem_keys_upsert_of_mem s _ h)

/-- Every requested table name is a key of the loop output. -/
lemma analyzeLoop_mem_keys (dbName : String) (flags : List SchemaDetailFlag)
    (oracle : TableOracle) :
    ∀ (ts : List String) (acc : List (String × TableResult)) (t : String),
    t ∈ ts → t ∈ (analyzeLoop dbName flags oracle ts acc).map Prod.fst := by
  intro ts
  induction ts with
  | nil => intro acc t h; cases h
  | cons s rest ih =>
    intro acc t h
    simp only [analyzeLoop]
    rcases List.mem_cons.mp h with rfl | hrest
    · exact analyzeLoop_keys_mono dbName flags oracle rest _ t
        (mem_keys_upsert_self acc t _)
    · exact ih _ t hrest

/-- The loop output keys are duplicate-free. -/
lemma analyzeLoop_nodup (dbName : String) (flags : List SchemaDetailFlag)
    (oracle : TableOracle) :
    ∀ (ts : List String) (acc : List (String × TableResult)),
    (acc.map Prod.fst).Nodup →
    ((analyzeLoop dbName flags oracle ts acc).map Prod.fst).Nodup := by
  intro ts
  induction ts with
  | nil => intro acc h; exact h
  | cons s rest ih =>
    intro acc h
    simp only [analyzeLoop]
    exact ih _ (nodup_keys_upsert s _ h)

/-- Every key of the loop output is an accumulator key or a requested name. -/
lemma analyzeLoop_keys_sub (dbName : String) (flags : List SchemaDetailFlag)
    (oracle : TableOracle) :
    ∀ (ts : List String) (acc : List (String × TableResult))
      (p : String × TableResult), p ∈ analyzeLoop dbName flags oracle ts acc →
      p.1 ∈ acc.map Prod.fst ∨ p.1 ∈ ts := by
  intro ts
  induction ts with
  | nil => intro acc p h; exact Or.inl (List.mem_map.mpr ⟨p, h, rfl⟩)
  | cons s rest ih =>
    intro acc p h
    simp only [analyzeLoop] at h
    rcases ih _ p h with h1 | h1
    · rcases mem_keys_upsert_cases h1 with h2 | h2
      · exact Or.inl h2
      · exact Or.inr (by simp [h2])
    · exact Or.inr (List.mem_cons.mpr (Or.inr h1))

/-- In an association list whose values are determined by their keys,
lookup of any present key returns the determined value. -/
lemma lookup_eq_of_values (f : String → TableResult) :
    ∀ (m : List (String × TableResult)),
    (∀ p ∈ m, p.2 = f p.1) → ∀ t : String, t ∈ m.map Prod.fst →
      m.lookup t = some (f t) := by
  intro m
  induction m with
  | nil => intro _ t ht; simp at ht
  | cons q rest ih =>
    intro hv t ht
    rcases q with ⟨k, v⟩
    rw [List.map_cons] at ht
    by_cases htk : t = k
    · subst htk
      have hv0 : v = f t := hv (t, v) (List.mem_cons_self _ _)
      simp [List.lookup, hv0]
    · have hbeq : (t == k) = false := beq_eq_false_iff_ne.mpr htk
      have ht2 : t ∈ rest.map Prod.fst := by
        rcases List.mem_cons.mp ht with h1 | h1
        · exact absurd h1 htk
        · exact h1
      simp [List.lookup, hbeq]
      exact ih (fun p hp => hv p (List.mem_cons_of_mem _ hp)) t ht2

/-! ## Claim theorems -/

/-- C1 (code bug evaluation): a permission-denied call that successfully
acquired a connection invokes conn.release twice — once in the catch block
and once in the finally block — while a successful call releases once. The
claim that the release happens exactly once per call fails on every thrown
exit path. -/
theorem executeQuery_release_twice_on_denial :
    (executeQuery true true false "DROP TABLE Accounts" (Except.ok ()) none
        (Except.ok ()) (Except.ok (QueryRows.arr []))).acquireCount = 1 ∧
    (executeQuery true true false "DROP TABLE Accounts" (Except.ok ()) none
        (Except.ok ()) (Except.ok (QueryRows.arr []))).releaseCalls = 2 ∧
    (executeQuery true true true "SELECT 1" (Except.ok ()) none
        (Except.ok ()) (Except.ok (QueryRows.arr []))).releaseCalls = 1 := by
  decide

/-- C2: a query whose leading keyword is always-disallowed, or is in none
of the category lists, is rejected by checkPermissions under every policy,
and executeQuery consequently throws without sending the statement. -/
theorem forbidden_or_unrecognized_denied (q : String) (a b : Bool)
    (h : ALWAYS_DISALLOWED_COMMANDS.contains
          (leadingCommand (normalizeQuery q).data) = true ∨
      (DQL_COMMANDS.contains (leadingCommand (normalizeQuery q).data) = false ∧
       DML_COMMANDS.contains (leadingCommand (normalizeQuery q).data) = false ∧
       DDL_COMMANDS.contains (leadingCommand (normalizeQuery q).data) = false)) :
    checkPermissions q a b = false ∧
    ∀ (pv : Bool) (acq : Except String Unit) (db : Option String)
      (use : Except String Unit) (qr : Except String QueryRows),
      (executeQuery pv a b q acq db use qr).querySent = false ∧
      ∀ rows, (executeQuery pv a b q acq db use qr).result ≠ Except.ok rows := by
  have hcp : checkPermissions q a b = false := by
    simp only [checkPermissions]
    split
    next => rfl
    next =>
      split
      next => rfl
      next =>
        split
        next => rfl
        next =>
          split
          next => rfl
          next hA =>
            rcases h with hF | ⟨hq, hm, hd⟩
            · exact absurd hF hA
            · simp [not_mem_of_contains_false hq, not_mem_of_contains_false hm,
                not_mem_of_contains_false hd]
  exact ⟨hcp, fun pv acq db use qr =>
    executeQuery_denied pv a b q acq db use qr hcp⟩

/-- C2 witness: a GRANT statement is denied and never sent. -/
theorem forbidden_or_unrecognized_denied_witness :
    ALWAYS_DISALLOWED_COMMANDS.contains
      (leadingCommand (normalizeQuery "GRANT ALL ON db1 TO u1").data) = true ∧
    checkPermissions "GRANT ALL ON db1 TO u1" true true = false ∧
    (executeQuery true true true "GRANT ALL ON db1 TO u1" (Except.ok ()) none
      (Except.ok ()) (Except.ok (QueryRows.arr []))).querySent = false :=
  ⟨by decide,
   (forbidden_or_unrecognized_denied "GRANT ALL ON db1 TO u1" true true
     (Or.inl (by decide))).1,
   ((forbidden_or_unrecognized_denied "GRANT ALL ON db1 TO u1" true true
     (Or.inl (by decide))).2 true (Except.ok ()) none (Except.ok ())
     (Except.ok (QueryRows.arr []))).1⟩

/-- C3: a query whose normalized form still contains a semicolon after
removing at most one trailing semicolon is rejected under every policy. -/
theorem residual_semicolon_rejected (q : String) (a b : Bool)
    (h : (trimTrailingSemicolon (normalizeQuery q).data).contains ';' = true) :
    checkPermissions q a b = false := by
  simp only [checkPermissions]
  split
  next => rfl
  next => simp [h]

/-- C3 witness: a two-statement query is rejected even with all
permissions granted. -/
theorem residual_semicolon_rejected_witness :
    (trimTrailingSemicolon
      (normalizeQuery "SELECT 1; DROP TABLE t").data).contains ';' = true ∧
    checkPermissions "SELECT 1; DROP TABLE t" true true = false :=
  ⟨by decide, residual_semicolon_rejected "SELECT 1; DROP TABLE t" true true
    (by decide)⟩

/-- C4 counterexample: a two-statement query whose leading keyword is in
the Query list is rejected under every policy, so the claim quantified
over every input string with a Query leading keyword is false. -/
theorem dql_not_universally_allowed_cex :
    DQL_COMMANDS.contains
      (leadingCommand (normalizeQuery "SELECT 1; SELECT 2").data) = true ∧
    checkPermissions "SELECT 1; SELECT 2" true true = false ∧
    checkPermissions "SELECT 1; SELECT 2" false false = false := by decide

/-- C4 (amended): for every input whose normalized form has no residual
semicolon after trimming one optional trailing semicolon and whose leading
keyword is in the Query list, checkPermissions returns true under every
policy combination. -/
theorem dql_single_statement_allowed (q : String) (a b : Bool)
    (h1 : DQL_COMMANDS.contains (leadingCommand (normalizeQuery q).data) = true)
    (h2 : (trimTrailingSemicolon (normalizeQuery q).data).contains ';' = false) :
    checkPermissions q a b = true := by
  have hne : leadingCommand (normalizeQuery q).data ≠ "" := by
    intro hc
    rw [hc] at h1
    exact absurd h1 (by decide)
  have hd : leadingCommand (normalizeQuery q).data = "SELECT" ∨
      leadingCommand (normalizeQuery q).data = "SHOW" ∨
      leadingCommand (normalizeQuery q).data = "DESCRIBE" ∨
      leadingCommand (normalizeQuery q).data = "DESC" ∨
      leadingCommand (normalizeQuery q).data = "EXPLAIN" := by
    simpa [DQL_COMMANDS] using contains_mem h1
  have hforb : ALWAYS_DISALLOWED_COMMANDS.contains
      (leadingCommand (normalizeQuery q).data) = false := by
    rcases hd with h | h | h | h | h <;> rw [h] <;> decide
  have hempty := normalized_nonempty hne
  simp [checkPermissions, hempty, not_mem_of_contains_false h2, hne,
    not_mem_of_contains_false hforb, contains_mem h1]

/-- C4 witness: a plain SELECT is allowed with all permissions off. -/
theorem dql_single_statement_allowed_witness :
    DQL_COMMANDS.contains
      (leadingCommand (normalizeQuery "SELECT * FROM t").data) = true ∧
    (trimTrailingSemicolon
      (normalizeQuery "SELECT * FROM t").data).contains ';' = false ∧
    checkPermissions "SELECT * FROM t" false false = true :=
  ⟨by decide, by decide,
   dql_single_statement_allowed "SELECT * FROM t" false false (by decide)
     (by decide)⟩

/-- C5 counterexample: a two-statement query whose leading keyword is in
the Mutation list is rejected although allowDml is true, so the claim
quantified over every input string with a Mutation leading keyword is
false. -/
theorem dml_not_iff_flag_cex :
    DML_COMMANDS.contains
      (leadingCommand
        (normalizeQuery "INSERT INTO t VALUES (1); DROP TABLE t").data) = true ∧
    checkPermissions "INSERT INTO t VALUES (1); DROP TABLE t" true true = false := by
  decide

/-- C5 (amended): for every input whose normalized form has no residual
semicolon after trimming one optional trailing semicolon, a leading keyword
in the Mutation list makes checkPermissions return exactly allowDml, and a
leading keyword in the Definition list makes it return exactly allowDdl. -/
theorem dml_ddl_follow_policy_flags (q : String) (a b : Bool)
    (h2 : (trimTrailingSemicolon (normalizeQuery q).data).contains ';' = false) :
    (DML_COMMANDS.contains (leadingCommand (normalizeQuery q).data) = true →
      checkPermissions q a b = a) ∧
    (DDL_COMMANDS.contains (leadingCommand (normalizeQuery q).data) = true →
      checkPermissions q a b = b) := by
  constructor
  · intro h1
    have hne : leadingCommand (normalizeQuery q).data ≠ "" := by
      intro hc
      rw [hc] at h1
      exact absurd h1 (by decide)
    have hd : leadingCommand (normalizeQuery q).data = "INSERT" ∨
        leadingCommand (normalizeQuery q).data = "UPDATE" ∨
        leadingCommand (normalizeQuery q).data = "DELETE" ∨
        leadingCommand (normalizeQuery q).data = "REPLACE" := by
      simpa [DML_COMMANDS] using contains_mem h1
    have hforb : ALWAYS_DISALLOWED_COMMANDS.contains
        (leadingCommand (normalizeQuery q).data) = false := by
      rcases hd with h | h | h | h <;> rw [h] <;> decide
    have hdql : DQL_COMMANDS.contains
        (leadingCommand (normalizeQuery q).data) = false := by
      rcases hd with h | h | h | h <;> rw [h] <;> decide
    have hempty := normalized_nonempty hne
    simp [checkPermissions, hempty, not_mem_of_contains_false h2, hne,
      not_mem_of_contains_false hforb,
      not_mem_of_contains_false hdql, contains_mem h1]
  · intro h1
    have hne : leadingCommand (normalizeQuery q).data ≠ "" := by
      intro hc
      rw [hc] at h1
      exact absurd h1 (by decide)
    have hd : leadingCommand (normalizeQuery q).data = "CREATE" ∨
        leadingCommand (normalizeQuery q).data = "ALTER" ∨
        leadingCommand (normalizeQuery q).data = "DROP" ∨
        leadingCommand (normalizeQuery q).data = "TRUNCATE" ∨
        leadingCommand (normalizeQuery q).data = "RENAME" := by
      simpa [DDL_COMMANDS] using contains_mem h1
    have hforb : ALWAYS_DISALLOWED_COMMANDS.contains
        (leadingCommand (normalizeQuery q).data) = false := by
      rcases hd with h | h | h | h | h <;> rw [h] <;> decide
    have hdql : DQL_COMMANDS.contains
        (leadingCommand (normalizeQuery q).data) = false := by
      rcases hd with h | h | h | h | h <;> rw [h] <;> decide
    have hdml : DML_COMMANDS.contains
        (leadingCommand (normalizeQuery q).data) = false := by
      rcases hd with h | h | h | h | h <;> rw [h] <;> decide
    have hempty := normalized_nonempty hne
    simp [checkPermissions, hempty, not_mem_of_contains_false h2, hne,
      not_mem_of_contains_false hforb,
      not_mem_of_contains_false hdql, not_mem_of_contains_false hdml,
      contains_mem h1]

/-- C5 witness: INSERT follows allowDml, CREATE follows allowDdl. -/
theorem dml_ddl_follow_policy_flags_witness :
    DML_COMMANDS.contains
      (leadingCommand (normalizeQuery "INSERT INTO t VALUES (1)").data) = true ∧
    checkPermissions "INSERT INTO t VALUES (1)" true false = true ∧
    checkPermissions "INSERT INTO t VALUES (1)" false true = false ∧
    checkPermissions "CREATE TABLE t (id INT)" false true = true :=
  ⟨by decide,
   (dml_ddl_follow_policy_flags "INSERT INTO t VALUES (1)" true false
     (by decide)).1 (by decide),
   (dml_ddl_follow_policy_flags "INSERT INTO t VALUES (1)" false true
     (by decide)).1 (by decide),
   (dml_ddl_follow_policy_flags "CREATE TABLE t (id INT)" false true
     (by decide)).2 (by decide)⟩

/-- C8 counterexample: for a query whose normalized form begins with a
parenthesis, the extracted first token is the empty string and the query is
rejected, not classified as SELECT. -/
theorem paren_select_cex :
    leadingCommand (normalizeQuery "(SELECT 1) UNION (SELECT 2)").data = "" ∧
    checkPermissions "(SELECT 1) UNION (SELECT 2)" true true = false ∧
    checkPermissions "(SELECT 1) UNION (SELECT 2)" false false = false := by
  decide

/-- C8 (amended): the extracted leading keyword is the prefix of the
normalized query before the first whitespace, semicolon or parenthesis
character; when the normalized query begins with such a separator the
keyword is empty and checkPermissions rejects the query. -/
theorem leading_separator_rejected (q : String) (a b : Bool) (c : Char)
    (h1 : (normalizeQuery q).data.head? = some c) (h2 : isSepChar c = true) :
    leadingCommand (normalizeQuery q).data = "" ∧
    checkPermissions q a b = false := by
  have hlead : leadingCommand (normalizeQuery q).data = "" := by
    cases hD : (normalizeQuery q).data with
    | nil => exact leadingCommand_nil
    | cons c0 rest =>
      rw [hD] at h1
      have hc0 : c0 = c := by
        injection h1
      rw [leadingCommand, List.takeWhile_cons, hc0, h2]
      rfl
  refine ⟨hlead, ?_⟩
  simp only [checkPermissions]
  split
  next => rfl
  next =>
    split
    next => rfl
    next => simp [hlead]

/-- C8 witness: a normalized query starting with a parenthesis has an
empty leading keyword and is rejected. -/
theorem leading_separator_rejected_witness :
    (normalizeQuery "(SELECT 1)").data.head? = some '(' ∧
    isSepChar '(' = true ∧
    (leadingCommand (normalizeQuery "(SELECT 1)").data = "" ∧
      checkPermissions "(SELECT 1)" true true = false) :=
  ⟨by decide, by decide,
   leading_separator_rejected "(SELECT 1)" true true '(' (by decide) (by decide)⟩

/-- C9: on a successful execution returning an array of rows, the returned
rows are the post-processed rows truncated to the first 1000 when they
number more than 1000, and unchanged otherwise, in original order. -/
theorem executeQuery_row_limit (a b : Bool) (sql : String) (rows : List Row)
    (h : checkPermissions sql a b = true) :
    ((executeQuery true a b sql (Except.ok ()) none (Except.ok ())
        (Except.ok (QueryRows.arr rows))).result =
      Except.ok (limitRows (QueryRows.arr (rows.map processRow)))) ∧
    ((rows.map processRow).length > 1000 →
      limitRows (QueryRows.arr (rows.map processRow)) =
        QueryRows.arr ((rows.map processRow).take 1000)) ∧
    ((rows.map processRow).length ≤ 1000 →
      limitRows (QueryRows.arr (rows.map processRow)) =
        QueryRows.arr (rows.map processRow)) := by
  refine ⟨?_, ?_, ?_⟩
  · simp [executeQuery, executeQueryAfterUse, h, processRows]
  · intro hl
    simp [limitRows, DEFAULT_ROW_LIMIT, hl]
  · intro hl
    rw [List.length_map] at hl
    simp [limitRows, DEFAULT_ROW_LIMIT, Nat.not_lt.mpr hl]

/-- C9 witness: a 1500-row result is truncated to its first 1000 rows. -/
theorem executeQuery_row_limit_witness :
    checkPermissions "SELECT * FROM big" false false = true ∧
    (bigRows.map processRow).length > 1000 ∧
    (executeQuery true false false "SELECT * FROM big" (Except.ok ()) none
        (Except.ok ()) (Except.ok (QueryRows.arr bigRows))).result =
      Except.ok (QueryRows.arr ((bigRows.map processRow).take 1000)) := by
  have hmain := executeQuery_row_limit false false "SELECT * FROM big" bigRows
    (by decide)
  have hlen : (bigRows.map processRow).length > 1000 := by
    simp [bigRows]
  exact ⟨by decide, hlen, by rw [hmain.1, hmain.2.1 hlen]⟩

/-- C10: on a successful execution returning an array of rows, the result
is the hex-encoded rows with the row limit applied afterwards; every buffer
value of an input row appears hex-encoded in its processed row; no returned
row contains a raw buffer value; and the hex encoding uses only lowercase
hexadecimal characters. -/
theorem executeQuery_hex_encoding (a b : Bool) (sql : String) (rows : List Row)
    (h : checkPermissions sql a b = true) :
    ((executeQuery true a b sql (Except.ok ()) none (Except.ok ())
        (Except.ok (QueryRows.arr rows))).result =
      Except.ok (limitRows (QueryRows.arr (rows.map processRow)))) ∧
    (∀ r ∈ rows, ∀ k : String, ∀ bs : List Nat, (k, Value.buf bs) ∈ r →
      (k, Value.str (bufferToHex bs)) ∈ processRow r) ∧
    (∀ out, limitRows (QueryRows.arr (rows.map processRow)) = QueryRows.arr out →
      ∀ r ∈ out, ∀ kv ∈ r, ∀ bs : List Nat, kv.2 ≠ Value.buf bs) ∧
    (∀ bs : List Nat, ∀ c ∈ (bufferToHex bs).data,
      c ∈ "0123456789abcdef".data) := by
  refine ⟨?_, ?_, ?_, ?_⟩
  · simp [executeQuery, executeQueryAfterUse, h, processRows]
  · intro r _ k bs hkv
    exact List.mem_map.mpr ⟨(k, Value.buf bs), hkv, by simp [encodeValue]⟩
  · intro out hout r hrout kv hkv bs
    have hrp : r ∈ rows.map processRow := by
      simp only [limitRows] at hout
      split at hout
      next =>
        injection hout with he
        rw [← he] at hrout
        exact List.mem_of_mem_take hrout
      next =>
        injection hout with he
        rw [← he] at hrout
        exact hrout
    rcases List.mem_map.mp hrp with ⟨r0, _, rfl⟩
    rcases List.mem_map.mp hkv with ⟨⟨k0, v0⟩, _, rfl⟩
    cases v0 <;> simp [encodeValue]
  · intro bs c hc
    have hc2 : c ∈ (bs.map byteToHexChars).flatten := hc
    rcases List.mem_flatten.mp hc2 with ⟨l, hl, hcl⟩
    rcases List.mem_map.mp hl with ⟨bb, _, rfl⟩
    have hm : c = hexDigit (bb % 256 / 16) ∨ c = hexDigit (bb % 16) := by
      simpa [byteToHexChars] using hcl
    rcases hm with rfl | rfl
    · exact hexDigit_mem _ (by omega)
    · exact hexDigit_mem _ (by omega)

/-- C10 witness: a buffer column is returned as its lowercase hex text. -/
theorem executeQuery_hex_encoding_witness :
    checkPermissions "SHOW TABLES" false false = true ∧
    (executeQuery true false false "SHOW TABLES" (Except.ok ()) none
        (Except.ok ())
        (Except.ok (QueryRows.arr [[("data", Value.buf [0, 255, 16])]]))).result =
      Except.ok (QueryRows.arr [[("data", Value.str "00ff10")]]) := by
  have hmain := (executeQuery_hex_encoding false false "SHOW TABLES"
    [[("data", Value.buf [0, 255, 16])]] (by decide)).1
  exact ⟨by decide, by rw [hmain]; decide⟩

/-- C6 counterexample: a call with a non-empty table list still raises
InvalidParams when no database name can be resolved, so the claim that
analyzeTables raises only on an empty table list is false. -/
theorem analyzeTables_nonempty_throws_cex :
    analyzeTables none trivialOracle ["t1"] "STANDARD" none =
      Except.error (McpErr.invalidParams
        "Database name is required (either in arguments or environment config)") := by
  decide

/-- C6 (amended): analyzeTables raises InvalidParams exactly when the table
list is empty, or the resolved database name is missing or empty, or it
fails the identifier pattern; with a non-empty list and a valid resolvable
database name the call never throws. -/
theorem analyzeTables_error_iff (env : Option String) (oracle : TableOracle)
    (ts : List String) (dl : String) (db : Option String) :
    (∃ e, analyzeTables env oracle ts dl db = Except.error e) ↔
      (ts = [] ∨ ∀ d, resolveDbName db env = some d →
        d = "" ∨ validIdent d = false) := by
  unfold analyzeTables
  rcases ts with _ | ⟨t, ts'⟩
  · simp
  · simp only [List.isEmpty_cons, Bool.false_eq_true, if_false]
    cases hdb : resolveDbName db env with
    | none => simp
    | some d =>
      by_cases hde : d = ""
      · subst hde
        simp
      · by_cases hv : validIdent d = true
        · simp [hde, hv]
        · rw [Bool.not_eq_true] at hv
          simp [hde, hv]

/-- C6 witness: the empty table list raises. -/
theorem analyzeTables_error_iff_witness :
    ∃ e, analyzeTables (some "db1") trivialOracle [] "BASIC" none =
      Except.error e :=
  (analyzeTables_error_iff (some "db1") trivialOracle [] "BASIC" none).mpr
    (Or.inl rfl)

/-- C7: with a non-empty table list and a valid resolvable database name,
the returned mapping has exactly one entry per requested table name, whose
value depends only on that table; a malformed name yields only an error
entry whose message matches the claimed text up to letter case, a
nonexistent table yields only an error entry, an existence-check or facet
failure yields only an error entry while sibling tables keep their own
entries, and a table succeeding under STANDARD detail has columns,
foreign_keys and indexes set and no error. -/
theorem analyzeTables_per_table_results (env : Option String)
    (oracle : TableOracle) (ts : List String) (dl : String)
    (db : Option String) (d : String)
    (h1 : ts ≠ []) (h2 : resolveDbName db env = some d) (h3 : d ≠ "")
    (h4 : validIdent d = true) :
    ∃ m, analyzeTables env oracle ts dl db = Except.ok m ∧
      (∀ t ∈ ts, m.lookup t =
        some (analyzeOneTable d (resolveFlags dl) oracle t)) ∧
      (m.map Prod.fst).Nodup ∧
      (∀ p ∈ m, p.1 ∈ ts) ∧
      (∀ t : String, validIdent t = false →
        analyzeOneTable d (resolveFlags dl) oracle t =
          { error := some "Invalid table name format." }) ∧
      (List.IsInfix "invalid table name format.".data
        (lowerString "Invalid table name format.").data) ∧
      (∀ t : String, validIdent t = true →
        oracle.existsCheck t = Except.ok false →
        analyzeOneTable d (resolveFlags dl) oracle t =
          { error := some ("Table \x27" ++ t
              ++ "\x27 does not exist in database \x27" ++ d ++ "\x27.") }) ∧
      (∀ t e : String, validIdent t = true →
        oracle.existsCheck t = Except.error e →
        analyzeOneTable d (resolveFlags dl) oracle t =
          { error := some ("Failed to check existence for table \x27" ++ t
              ++ "\x27: " ++ e) }) ∧
      (∀ t e : String, validIdent t = true →
        oracle.existsCheck t = Except.ok true →
        fetchFacets (resolveFlags dl) oracle t = Except.error e →
        analyzeOneTable d (resolveFlags dl) oracle t =
          { error := some ("Failed to analyze table: " ++ e) }) ∧
      (∀ t : String, ∀ cs fs is : Facet, validIdent t = true →
        oracle.existsCheck t = Except.ok true →
        oracle.fetchColumnsBasic t = Except.ok cs →
        oracle.fetchForeignKeys t = Except.ok fs →
        oracle.fetchIndexesBasic t = Except.ok is →
        analyzeOneTable d (resolveFlags "STANDARD") oracle t =
          { columns := some cs, foreign_keys := some fs, indexes := some is,
            error := none }) := by
  have hts : ts.isEmpty = false := by
    cases ts with
    | nil => exact absurd rfl h1
    | cons a l => rfl
  refine ⟨analyzeLoop d (resolveFlags dl) oracle ts [],
    ?_, ?_, ?_, ?_, ?_, ?_, ?_, ?_, ?_, ?_⟩
  · simp [analyzeTables, hts, h2, h3, h4]
  · intro t ht
    exact lookup_eq_of_values (analyzeOneTable d (resolveFlags dl) oracle) _
      (analyzeLoop_values d (resolveFlags dl) oracle ts [] (by simp)) t
      (analyzeLoop_mem_keys d (resolveFlags dl) oracle ts [] t ht)
  · exact analyzeLoop_nodup d (resolveFlags dl) oracle ts [] (by simp)
  · intro p hp
    rcases analyzeLoop_keys_sub d (resolveFlags dl) oracle ts [] p hp with h | h
    · simp at h
    · exact h
  · intro t hvt
    simp [analyzeOneTable, hvt]
  · decide
  · intro t hvt hex
    simp [analyzeOneTable, hvt, hex]
  · intro t e hvt hex
    simp [analyzeOneTable, hvt, hex]
  · intro t e hvt hex hff
    simp [analyzeOneTable, hvt, hex, hff]
  · intro t cs fs is hvt hex hc hf hi
    have hfl : resolveFlags "STANDARD" =
        [SchemaDetailFlag.COLUMNS_BASIC, SchemaDetailFlag.FOREIGN_KEYS,
         SchemaDetailFlag.INDEXES_BASIC] := by decide
    have hnf : ([SchemaDetailFlag.COLUMNS_BASIC, SchemaDetailFlag.FOREIGN_KEYS,
        SchemaDetailFlag.INDEXES_BASIC].contains
          SchemaDetailFlag.COLUMNS_FULL) = false := by decide
    have hcb : ([SchemaDetailFlag.COLUMNS_BASIC, SchemaDetailFlag.FOREIGN_KEYS,
        SchemaDetailFlag.INDEXES_BASIC].contains
          SchemaDetailFlag.COLUMNS_BASIC) = true := by decide
    have hfk : ([SchemaDetailFlag.COLUMNS_BASIC, SchemaDetailFlag.FOREIGN_KEYS,
        SchemaDetailFlag.INDEXES_BASIC].contains
          SchemaDetailFlag.FOREIGN_KEYS) = true := by decide
    have hni : ([SchemaDetailFlag.COLUMNS_BASIC, SchemaDetailFlag.FOREIGN_KEYS,
        SchemaDetailFlag.INDEXES_BASIC].contains
          SchemaDetailFlag.INDEXES_FULL) = false := by decide
    have hib : ([SchemaDetailFlag.COLUMNS_BASIC, SchemaDetailFlag.FOREIGN_KEYS,
        SchemaDetailFlag.INDEXES_BASIC].contains
          SchemaDetailFlag.INDEXES_BASIC) = true := by decide
    simp [analyzeOneTable, hvt, hex, fetchFacets, hfl, hnf, hcb, hfk, hni, hib,
      hc, hf, hi, Except.map]

/-- C7 witness: the spec example with one valid and one malformed name. -/
theorem analyzeTables_per_table_results_witness :
    ∃ m, analyzeTables none trivialOracle ["validTable", "bad name!"]
        "STANDARD" (some "testdb") = Except.ok m ∧
      (∀ t ∈ ["validTable", "bad name!"], m.lookup t =
        some (analyzeOneTable "testdb" (resolveFlags "STANDARD") trivialOracle t)) ∧
      (m.map Prod.fst).Nodup ∧
      (∀ p ∈ m, p.1 ∈ ["validTable", "bad name!"]) ∧
      (∀ t : String, validIdent t = false →
        analyzeOneTable "testdb" (resolveFlags "STANDARD") trivialOracle t =
          { error := some "Invalid table name format." }) ∧
      (List.IsInfix "invalid table name format.".data
        (lowerString "Invalid table name format.").data) ∧
      (∀ t : String, validIdent t = true →
        trivialOracle.existsCheck t = Except.ok false →
        analyzeOneTable "testdb" (resolveFlags "STANDARD") trivialOracle t =
          { error := some ("Table \x27" ++ t
              ++ "\x27 does not exist in database \x27" ++ "testdb" ++ "\x27.") }) ∧
      (∀ t e : String, validIdent t = true →
        trivialOracle.existsCheck t = Except.error e →
        analyzeOneTable "testdb" (resolveFlags "STANDARD") trivialOracle t =
          { error := some ("Failed to check existence for table \x27" ++ t
              ++ "\x27: " ++ e) }) ∧
      (∀ t e : String, validIdent t = true →
        trivialOracle.existsCheck t = Except.ok true →
        fetchFacets (resolveFlags "STANDARD") trivialOracle t = Except.error e →
        analyzeOneTable "testdb" (resolveFlags "STANDARD") trivialOracle t =
          { error := some ("Failed to analyze table: " ++ e) }) ∧
      (∀ t : String, ∀ cs fs is : Facet, validIdent t = true →
        trivialOracle.existsCheck t = Except.ok true →
        trivialOracle.fetchColumnsBasic t = Except.ok cs →
        trivialOracle.fetchForeignKeys t = Except.ok fs →
        trivialOracle.fetchIndexesBasic t = Except.ok is →
        analyzeOneTable "testdb" (resolveFlags "STANDARD") trivialOracle t =
          { columns := some cs, foreign_keys := some fs, indexes := some is,
            error := none }) :=
  analyzeTables_per_table_results none trivialOracle
    ["validTable", "bad name!"] "STANDARD" (some "testdb") "testdb"
    (by decide) (by decide) (by decide) (by decide)

end MariaDBMCP
